import Mathlib

/-!
Shallow embedding of the gnome-tiler tiling engine, checked against its
natural-language specification.

Sources embedded (JavaScript, integer pixel arithmetic):
  * `src/utils/Geometry.js` — rectangle math (`hasVerticalOverlap`,
    `hasHorizontalOverlap`, `getRightEdge`, `getBottomEdge`,
    `getLeftHalfRect`, `getRightHalfRect`, `getMaximizedRect`);
  * `src/core/LayoutEngine.js` — `calculateSnapRect`;
  * StateStore (`src/unnamed/part_004`) — registry of `WindowState`s,
    `setWindow`, `removeWindow`, `recalculateNeighbors`, `_findNeighbors`,
    `_removeFromNeighbors`;
  * ResizeHandler (in `src/services/GapDetector.js`, lines 641–822) —
    `_adjustRightNeighbors`, `_adjustLeftNeighbors`,
    `_adjustBottomNeighbors`, `_adjustTopNeighbors`;
  * TileManager (`src/unnamed/part_005`) — `_redistributeAfterRemoval`,
    the width-planning portion of `_onInsertDetected`, `_onSwapDetected`;
  * SwapDetector (`src/unnamed/part_000`) — `_performSwap`.

Conventions: JavaScript numbers are modelled as `Int` (every quantity the
claims touch is integral); `Math.floor(a / b)` for a positive divisor is
`Int.fdiv`; `Math.ceil(a / b)` is `-((-a).fdiv b)`.  The one floating-point
expression involved (`Math.floor(w * scaleFactor)` with
`scaleFactor = remainingWidth / currentTotalWidth`) is modelled by its exact
rational value `(w * remainingWidth).fdiv currentTotalWidth`.  Configuration
values read from `CONFIG` (`src/unnamed/part_007`) are passed as explicit
parameters; the configured defaults are the `CONFIG_*` definitions below.
-/

/-- A rectangle `{x, y, width, height}` (`src/utils/Geometry.js`). -/
structure Rect where
  x : Int
  y : Int
  width : Int
  height : Int
deriving DecidableEq

/-- `CONFIG.INNER_GAP` (src/unnamed/part_007). -/
def CONFIG_INNER_GAP : Int := 8

/-- `CONFIG.NEIGHBOR_OVERLAP_MIN` (src/unnamed/part_007). -/
def CONFIG_NEIGHBOR_OVERLAP_MIN : Int := 50

/-- `CONFIG.EDGE_TOLERANCE` (src/unnamed/part_007). -/
def CONFIG_EDGE_TOLERANCE : Int := 10

/-- `CONFIG.MIN_WINDOW_WIDTH` (src/unnamed/part_007). -/
def CONFIG_MIN_WINDOW_WIDTH : Int := 200

/-- `CONFIG.MIN_WINDOW_HEIGHT` (src/unnamed/part_007). -/
def CONFIG_MIN_WINDOW_HEIGHT : Int := 100

/-- `getRightEdge` (Geometry.js line 61): `rect.x + rect.width`. -/
def getRightEdge (rect : Rect) : Int := rect.x + rect.width

/-- `getBottomEdge` (Geometry.js line 70): `rect.y + rect.height`. -/
def getBottomEdge (rect : Rect) : Int := rect.y + rect.height

/-- `hasVerticalOverlap` (Geometry.js lines 23–34): the projected overlap
length of the two y-ranges is at least `minOverlap`. -/
def hasVerticalOverlap (a b : Rect) (minOverlap : Int) : Bool :=
  let overlapStart := max a.y b.y
  let overlapEnd := min (a.y + a.height) (b.y + b.height)
  minOverlap ≤ overlapEnd - overlapStart

/-- `hasHorizontalOverlap` (Geometry.js lines 43–54). -/
def hasHorizontalOverlap (a b : Rect) (minOverlap : Int) : Bool :=
  let overlapStart := max a.x b.x
  let overlapEnd := min (a.x + a.width) (b.x + b.width)
  minOverlap ≤ overlapEnd - overlapStart

/-- `getLeftHalfRect` (Geometry.js lines 134–141). -/
def getLeftHalfRect (workArea : Rect) (gap : Int) : Rect :=
  { x := workArea.x + gap
    y := workArea.y + gap
    width := (workArea.width - gap * 3).fdiv 2
    height := workArea.height - gap * 2 }

/-- `getRightHalfRect` (Geometry.js lines 149–157). -/
def getRightHalfRect (workArea : Rect) (gap : Int) : Rect :=
  let halfWidth := (workArea.width - gap * 3).fdiv 2
  { x := workArea.x + workArea.width - halfWidth - gap
    y := workArea.y + gap
    width := halfWidth
    height := workArea.height - gap * 2 }

/-- `getMaximizedRect` (Geometry.js lines 165–172). -/
def getMaximizedRect (workArea : Rect) (gap : Int) : Rect :=
  { x := workArea.x + gap
    y := workArea.y + gap
    width := workArea.width - gap * 2
    height := workArea.height - gap * 2 }

/-- The snap zones understood by `LayoutEngine.calculateSnapRect`; `unknown`
stands for any unrecognized zone string (the `default` switch case). -/
inductive SnapZone where
  | left
  | right
  | top
  | maximize
  | leftTop
  | rightTop
  | leftBottom
  | rightBottom
  | unknown
deriving DecidableEq

/-- `LayoutEngine._getQuadrant` (LayoutEngine.js lines 91–104);
`horizLeft`/`vertTop` select the `'left'`/`'top'` branches. -/
def getQuadrant (workArea : Rect) (horizLeft vertTop : Bool) (gap : Int) : Rect :=
  let halfWidth := (workArea.width - gap * 3).fdiv 2
  let halfHeight := (workArea.height - gap * 3).fdiv 2
  { x := if horizLeft then workArea.x + gap
         else workArea.x + workArea.width - halfWidth - gap
    y := if vertTop then workArea.y + gap
         else workArea.y + workArea.height - halfHeight - gap
    width := halfWidth
    height := halfHeight }

/-- `LayoutEngine.calculateSnapRect` (LayoutEngine.js lines 49–80).  The work
area lookup `GnomeCompat.getWorkArea(monitorIndex)` and the read of
`CONFIG.INNER_GAP` are the `workArea`/`gap` parameters. -/
def calculateSnapRect (zone : SnapZone) (workArea : Rect) (gap : Int) : Rect :=
  match zone with
  | .left => getLeftHalfRect workArea gap
  | .right => getRightHalfRect workArea gap
  | .top => getMaximizedRect workArea gap
  | .maximize => getMaximizedRect workArea gap
  | .leftTop => getQuadrant workArea true true gap
  | .rightTop => getQuadrant workArea false true gap
  | .leftBottom => getQuadrant workArea true false gap
  | .rightBottom => getQuadrant workArea false false gap
  | .unknown => getMaximizedRect workArea gap

/-- C8: for every work area and gap, the `"left"` snap zone rectangle has
width `⌊(workArea.width − 3·gap)/2⌋`, height `workArea.height − 2·gap`, and
origin `(workArea.x + gap, workArea.y + gap)`; for work area
`{x:0, y:0, w:1920, h:1080}` and gap 8 it equals `{x:8, y:8, w:948, h:1064}`. -/
theorem snapRect_left_formula :
    (∀ (workArea : Rect) (gap : Int),
      calculateSnapRect SnapZone.left workArea gap =
        { x := workArea.x + gap
          y := workArea.y + gap
          width := (workArea.width - gap * 3).fdiv 2
          height := workArea.height - gap * 2 }) ∧
    calculateSnapRect SnapZone.left ⟨0, 0, 1920, 1080⟩ 8 = ⟨8, 8, 948, 1064⟩ := by
  constructor
  · intro workArea gap
    rfl
  · decide

/-- The four neighbor id lists of a `WindowState` (StateStore, part_004). -/
structure Neighbors where
  left : List Int
  right : List Int
  top : List Int
  bottom : List Int
deriving DecidableEq

/-- `{ left: [], right: [], top: [], bottom: [] }`. -/
def Neighbors.empty : Neighbors := ⟨[], [], [], []⟩

/-- `WindowState` (StateStore, part_004 lines 22–38). -/
structure WindowState where
  id : Int
  rect : Rect
  originalRect : Option Rect
  zone : String
  isTiled : Bool
  neighbors : Neighbors
deriving DecidableEq

/-- The `StateStore._windows` map, modelled as an insertion-ordered list of
window states (JavaScript `Map` iteration order); registry keys are unique,
which theorems state as `(ws.map WindowState.id).Nodup` where needed. -/
abbrev Registry := List WindowState

/-- `StateStore.getWindow` (part_004 line 86): `this._windows.get(id)`. -/
def getWindow (id : Int) (ws : Registry) : Option WindowState :=
  ws.find? (fun w => w.id == id)

/-- `StateStore.getTiledWindows` (part_004 line 106). -/
def getTiledWindows (ws : Registry) : Registry :=
  ws.filter (fun w => w.isTiled)

/-- One iteration of the `for (const other of allWindows)` loop body of
`StateStore._findNeighbors` (part_004 lines 143–176): skip `other` when its
id matches, otherwise push `other.id` onto each directional list whose
edge-distance test (within `tolerance`) and overlap test pass. -/
def findNeighborsStep (w : WindowState) (tolerance minOverlap : Int)
    (nb : Neighbors) (other : WindowState) : Neighbors :=
  if other.id == w.id then nb
  else
    let wRect := w.rect
    let oRect := other.rect
    let nb1 := if |getRightEdge wRect - oRect.x| ≤ tolerance &&
                  hasVerticalOverlap wRect oRect minOverlap
               then { nb with right := nb.right ++ [other.id] } else nb
    let nb2 := if |wRect.x - getRightEdge oRect| ≤ tolerance &&
                  hasVerticalOverlap wRect oRect minOverlap
               then { nb1 with left := nb1.left ++ [other.id] } else nb1
    let nb3 := if |getBottomEdge wRect - oRect.y| ≤ tolerance &&
                  hasHorizontalOverlap wRect oRect minOverlap
               then { nb2 with bottom := nb2.bottom ++ [other.id] } else nb2
    if |wRect.y - getBottomEdge oRect| ≤ tolerance &&
       hasHorizontalOverlap wRect oRect minOverlap
    then { nb3 with top := nb3.top ++ [other.id] } else nb3

/-- `StateStore._findNeighbors` (part_004 lines 138–179). -/
def findNeighbors (w : WindowState) (allWindows : Registry)
    (tolerance minOverlap : Int) : Neighbors :=
  allWindows.foldl (findNeighborsStep w tolerance minOverlap) Neighbors.empty

/-- `StateStore.recalculateNeighbors` (part_004 lines 121–129): every tiled
window's `neighbors` is replaced by `_findNeighbors` over the snapshot of
tiled windows; untiled windows are untouched.  (`_findNeighbors` reads only
`rect` and `id`, which the loop never mutates, so the in-place JavaScript
mutation is equivalent to this one-shot map.) -/
def recalculateNeighbors (tolerance minOverlap : Int) (ws : Registry) : Registry :=
  let tiledWindows := getTiledWindows ws
  ws.map (fun w =>
    if w.isTiled then { w with neighbors := findNeighbors w tiledWindows tolerance minOverlap }
    else w)

/-- `StateStore._removeFromNeighbors` (part_004 lines 186–193). -/
def removeFromNeighbors (removedId : Int) (ws : Registry) : Registry :=
  ws.map (fun w =>
    { w with neighbors :=
        { left := w.neighbors.left.filter (fun id => id != removedId)
          right := w.neighbors.right.filter (fun id => id != removedId)
          top := w.neighbors.top.filter (fun id => id != removedId)
          bottom := w.neighbors.bottom.filter (fun id => id != removedId) } })

/-- `StateStore.removeWindow` (part_004 lines 94–100): when `id` is present
the entry is deleted (`Map.delete`), every other entry's neighbor lists are
purged of `id`, and `_notifyChange` fires (the `Bool`); when absent the
registry is returned unchanged and no notification fires. -/
def removeWindow (id : Int) (ws : Registry) : Registry × Bool :=
  if ws.any (fun w => w.id == id) then
    (removeFromNeighbors id (ws.filter (fun w => w.id != id)), true)
  else
    (ws, false)

/-- The condition under which `_findNeighbors` pushes `other.id` onto
`neighbors.right` (part_004 lines 150–154). -/
def rightNeighborTest (tolerance minOverlap : Int) (w o : WindowState) : Bool :=
  !(o.id == w.id) &&
  (|getRightEdge w.rect - o.rect.x| ≤ tolerance &&
   hasVerticalOverlap w.rect o.rect minOverlap)

/-- The condition for `neighbors.left` (part_004 lines 157–161). -/
def leftNeighborTest (tolerance minOverlap : Int) (w o : WindowState) : Bool :=
  !(o.id == w.id) &&
  (|w.rect.x - getRightEdge o.rect| ≤ tolerance &&
   hasVerticalOverlap w.rect o.rect minOverlap)

/-- The condition for `neighbors.bottom` (part_004 lines 164–168). -/
def bottomNeighborTest (tolerance minOverlap : Int) (w o : WindowState) : Bool :=
  !(o.id == w.id) &&
  (|getBottomEdge w.rect - o.rect.y| ≤ tolerance &&
   hasHorizontalOverlap w.rect o.rect minOverlap)

/-- The condition for `neighbors.top` (part_004 lines 171–175). -/
def topNeighborTest (tolerance minOverlap : Int) (w o : WindowState) : Bool :=
  !(o.id == w.id) &&
  (|w.rect.y - getBottomEdge o.rect| ≤ tolerance &&
   hasHorizontalOverlap w.rect o.rect minOverlap)

lemma findNeighborsStep_right (w : WindowState) (tolerance minOverlap : Int)
    (nb : Neighbors) (o : WindowState) :
    (findNeighborsStep w tolerance minOverlap nb o).right =
      nb.right ++ (if rightNeighborTest tolerance minOverlap w o then [o.id] else []) := by
  simp only [findNeighborsStep, rightNeighborTest]
  split_ifs <;> simp_all <;> linarith

lemma findNeighborsStep_left (w : WindowState) (tolerance minOverlap : Int)
    (nb : Neighbors) (o : WindowState) :
    (findNeighborsStep w tolerance minOverlap nb o).left =
      nb.left ++ (if leftNeighborTest tolerance minOverlap w o then [o.id] else []) := by
  simp only [findNeighborsStep, leftNeighborTest]
  split_ifs <;> simp_all

lemma findNeighborsStep_bottom (w : WindowState) (tolerance minOverlap : Int)
    (nb : Neighbors) (o : WindowState) :
    (findNeighborsStep w tolerance minOverlap nb o).bottom =
      nb.bottom ++ (if bottomNeighborTest tolerance minOverlap w o then [o.id] else []) := by
  simp only [findNeighborsStep, bottomNeighborTest]
  split_ifs <;> simp_all <;> linarith

lemma findNeighborsStep_top (w : WindowState) (tolerance minOverlap : Int)
    (nb : Neighbors) (o : WindowState) :
    (findNeighborsStep w tolerance minOverlap nb o).top =
      nb.top ++ (if topNeighborTest tolerance minOverlap w o then [o.id] else []) := by
  simp only [findNeighborsStep, topNeighborTest]
  split_ifs <;> simp_all

lemma foldl_findNeighborsStep_right (w : WindowState) (tolerance minOverlap : Int) :
    ∀ (l : List WindowState) (nb : Neighbors),
      (l.foldl (findNeighborsStep w tolerance minOverlap) nb).right =
        nb.right ++ (l.filter (rightNeighborTest tolerance minOverlap w)).map WindowState.id := by
  intro l
  induction l with
  | nil => intro nb; simp
  | cons o l ih =>
    intro nb
    rw [List.foldl_cons, ih, findNeighborsStep_right, List.filter_cons]
    split_ifs <;> simp

lemma foldl_findNeighborsStep_left (w : WindowState) (tolerance minOverlap : Int) :
    ∀ (l : List WindowState) (nb : Neighbors),
      (l.foldl (findNeighborsStep w tolerance minOverlap) nb).left =
        nb.left ++ (l.filter (leftNeighborTest tolerance minOverlap w)).map WindowState.id := by
  intro l
  induction l with
  | nil => intro nb; simp
  | cons o l ih =>
    intro nb
    rw [List.foldl_cons, ih, findNeighborsStep_left, List.filter_cons]
    split_ifs <;> simp

lemma foldl_findNeighborsStep_bottom (w : WindowState) (tolerance minOverlap : Int) :
    ∀ (l : List WindowState) (nb : Neighbors),
      (l.foldl (findNeighborsStep w tolerance minOverlap) nb).bottom =
        nb.bottom ++ (l.filter (bottomNeighborTest tolerance minOverlap w)).map WindowState.id := by
  intro l
  induction l with
  | nil => intro nb; simp
  | cons o l ih =>
    intro nb
    rw [List.foldl_cons, ih, findNeighborsStep_bottom, List.filter_cons]
    split_ifs <;> simp

lemma foldl_findNeighborsStep_top (w : WindowState) (tolerance minOverlap : Int) :
    ∀ (l : List WindowState) (nb : Neighbors),
      (l.foldl (findNeighborsStep w tolerance minOverlap) nb).top =
        nb.top ++ (l.filter (topNeighborTest tolerance minOverlap w)).map WindowState.id := by
  intro l
  induction l with
  | nil => intro nb; simp
  | cons o l ih =>
    intro nb
    rw [List.foldl_cons, ih, findNeighborsStep_top, List.filter_cons]
    split_ifs <;> simp

lemma mem_findNeighbors_right {w : WindowState} {tolerance minOverlap : Int}
    {l : List WindowState} {b : Int} :
    b ∈ (findNeighbors w l tolerance minOverlap).right ↔
      ∃ o ∈ l, o.id = b ∧ rightNeighborTest tolerance minOverlap w o = true := by
  unfold findNeighbors
  rw [foldl_findNeighborsStep_right]
  simp only [Neighbors.empty, List.nil_append, List.mem_map, List.mem_filter]
  constructor
  · rintro ⟨o, ⟨ho, ht⟩, rfl⟩
    exact ⟨o, ho, rfl, ht⟩
  · rintro ⟨o, ho, rfl, ht⟩
    exact ⟨o, ⟨ho, ht⟩, rfl⟩

lemma mem_findNeighbors_left {w : WindowState} {tolerance minOverlap : Int}
    {l : List WindowState} {b : Int} :
    b ∈ (findNeighbors w l tolerance minOverlap).left ↔
      ∃ o ∈ l, o.id = b ∧ leftNeighborTest tolerance minOverlap w o = true := by
  unfold findNeighbors
  rw [foldl_findNeighborsStep_left]
  simp only [Neighbors.empty, List.nil_append, List.mem_map, List.mem_filter]
  constructor
  · rintro ⟨o, ⟨ho, ht⟩, rfl⟩
    exact ⟨o, ho, rfl, ht⟩
  · rintro ⟨o, ho, rfl, ht⟩
    exact ⟨o, ⟨ho, ht⟩, rfl⟩

lemma mem_findNeighbors_bottom {w : WindowState} {tolerance minOverlap : Int}
    {l : List WindowState} {b : Int} :
    b ∈ (findNeighbors w l tolerance minOverlap).bottom ↔
      ∃ o ∈ l, o.id = b ∧ bottomNeighborTest tolerance minOverlap w o = true := by
  unfold findNeighbors
  rw [foldl_findNeighborsStep_bottom]
  simp only [Neighbors.empty, List.nil_append, List.mem_map, List.mem_filter]
  constructor
  · rintro ⟨o, ⟨ho, ht⟩, rfl⟩
    exact ⟨o, ho, rfl, ht⟩
  · rintro ⟨o, ho, rfl, ht⟩
    exact ⟨o, ⟨ho, ht⟩, rfl⟩

lemma mem_findNeighbors_top {w : WindowState} {tolerance minOverlap : Int}
    {l : List WindowState} {b : Int} :
    b ∈ (findNeighbors w l tolerance minOverlap).top ↔
      ∃ o ∈ l, o.id = b ∧ topNeighborTest tolerance minOverlap w o = true := by
  unfold findNeighbors
  rw [foldl_findNeighborsStep_top]
  simp only [Neighbors.empty, List.nil_append, List.mem_map, List.mem_filter]
  constructor
  · rintro ⟨o, ⟨ho, ht⟩, rfl⟩
    exact ⟨o, ho, rfl, ht⟩
  · rintro ⟨o, ho, rfl, ht⟩
    exact ⟨o, ⟨ho, ht⟩, rfl⟩

lemma hasVerticalOverlap_eq_true {a b : Rect} {minOverlap : Int} :
    hasVerticalOverlap a b minOverlap = true ↔
      minOverlap ≤ min (getBottomEdge a) (getBottomEdge b) - max a.y b.y := by
  simp [hasVerticalOverlap, getBottomEdge]

lemma hasHorizontalOverlap_eq_true {a b : Rect} {minOverlap : Int} :
    hasHorizontalOverlap a b minOverlap = true ↔
      minOverlap ≤ min (getRightEdge a) (getRightEdge b) - max a.x b.x := by
  simp [hasHorizontalOverlap, getRightEdge]

lemma hasVerticalOverlap_comm {a b : Rect} {minOverlap : Int} :
    hasVerticalOverlap a b minOverlap = hasVerticalOverlap b a minOverlap := by
  simp only [hasVerticalOverlap]
  rw [max_comm, min_comm]

lemma hasHorizontalOverlap_comm {a b : Rect} {minOverlap : Int} :
    hasHorizontalOverlap a b minOverlap = hasHorizontalOverlap b a minOverlap := by
  simp only [hasHorizontalOverlap]
  rw [max_comm, min_comm]

/-- Each tiled window in the output of `recalculateNeighbors` is an input
window with only its `neighbors` replaced by `_findNeighbors` over the
snapshot of tiled input windows. -/
lemma mem_recalculateNeighbors_tiled {tolerance minOverlap : Int} {ws : Registry}
    {A : WindowState}
    (hA : A ∈ recalculateNeighbors tolerance minOverlap ws)
    (hAt : A.isTiled = true) :
    ∃ a ∈ ws, a.isTiled = true ∧
      A = { a with neighbors := findNeighbors a (getTiledWindows ws) tolerance minOverlap } := by
  unfold recalculateNeighbors at hA
  obtain ⟨a, ha, hEq⟩ := List.mem_map.mp hA
  by_cases ht : a.isTiled
  · exact ⟨a, ha, ht, by rw [← hEq]; simp [ht]⟩
  · rw [if_neg ht] at hEq
    rw [← hEq] at hAt
    exact absurd hAt (by simpa using ht)

/-- Two members of a registry with `Nodup` ids and equal ids are equal. -/
lemma registry_id_inj {ws : Registry} (hnd : (ws.map WindowState.id).Nodup)
    {a b : WindowState} (ha : a ∈ ws) (hb : b ∈ ws) (h : a.id = b.id) : a = b :=
  List.inj_on_of_nodup_map hnd ha hb h

/-- C5: immediately after `recalculateNeighbors()`, for all tiled windows A
and B in the registry, membership of B's id in each of A's four neighbor
lists implies the corresponding edge-distance bound (within
`EDGE_TOLERANCE`) and projected-overlap bound (at least
`NEIGHBOR_OVERLAP_MIN`) between A's and B's rectangles. -/
theorem recalculateNeighbors_adjacency
    (ws : Registry) (A B : WindowState)
    (hnd : (ws.map WindowState.id).Nodup)
    (hA : A ∈ recalculateNeighbors CONFIG_EDGE_TOLERANCE CONFIG_NEIGHBOR_OVERLAP_MIN ws)
    (hB : B ∈ recalculateNeighbors CONFIG_EDGE_TOLERANCE CONFIG_NEIGHBOR_OVERLAP_MIN ws)
    (hAt : A.isTiled = true) (hBt : B.isTiled = true) :
    (B.id ∈ A.neighbors.right →
      |getRightEdge A.rect - B.rect.x| ≤ CONFIG_EDGE_TOLERANCE ∧
      CONFIG_NEIGHBOR_OVERLAP_MIN ≤
        min (getBottomEdge A.rect) (getBottomEdge B.rect) - max A.rect.y B.rect.y) ∧
    (B.id ∈ A.neighbors.left →
      |A.rect.x - getRightEdge B.rect| ≤ CONFIG_EDGE_TOLERANCE ∧
      CONFIG_NEIGHBOR_OVERLAP_MIN ≤
        min (getBottomEdge A.rect) (getBottomEdge B.rect) - max A.rect.y B.rect.y) ∧
    (B.id ∈ A.neighbors.bottom →
      |getBottomEdge A.rect - B.rect.y| ≤ CONFIG_EDGE_TOLERANCE ∧
      CONFIG_NEIGHBOR_OVERLAP_MIN ≤
        min (getRightEdge A.rect) (getRightEdge B.rect) - max A.rect.x B.rect.x) ∧
    (B.id ∈ A.neighbors.top →
      |A.rect.y - getBottomEdge B.rect| ≤ CONFIG_EDGE_TOLERANCE ∧
      CONFIG_NEIGHBOR_OVERLAP_MIN ≤
        min (getRightEdge A.rect) (getRightEdge B.rect) - max A.rect.x B.rect.x) := by
  obtain ⟨a, haw, hat, hAeq⟩ := mem_recalculateNeighbors_tiled hA hAt
  obtain ⟨b, hbw, hbt, hBeq⟩ := mem_recalculateNeighbors_tiled hB hBt
  have hArect : A.rect = a.rect := by rw [hAeq]
  have hBrect : B.rect = b.rect := by rw [hBeq]
  have hBid : B.id = b.id := by rw [hBeq]
  have hAnb : A.neighbors = findNeighbors a (getTiledWindows ws)
      CONFIG_EDGE_TOLERANCE CONFIG_NEIGHBOR_OVERLAP_MIN := by rw [hAeq]
  have resolve : ∀ o : WindowState, o ∈ getTiledWindows ws → o.id = B.id → o.rect = B.rect := by
    intro o ho hid
    have how : o ∈ ws := (List.mem_filter.mp ho).1
    have : o = b := registry_id_inj hnd how hbw (by rw [hid, hBid])
    rw [this, hBrect]
  refine ⟨?_, ?_, ?_, ?_⟩
  · intro hmem
    rw [hAnb] at hmem
    obtain ⟨o, ho, hid, htest⟩ := mem_findNeighbors_right.mp hmem
    have horect := resolve o ho hid
    simp only [rightNeighborTest, Bool.and_eq_true, decide_eq_true_eq] at htest
    obtain ⟨-, hdist, hov⟩ := htest
    rw [horect] at hdist hov
    exact ⟨by rw [hArect]; exact hdist,
           by rw [hArect]; exact hasVerticalOverlap_eq_true.mp hov⟩
  · intro hmem
    rw [hAnb] at hmem
    obtain ⟨o, ho, hid, htest⟩ := mem_findNeighbors_left.mp hmem
    have horect := resolve o ho hid
    simp only [leftNeighborTest, Bool.and_eq_true, decide_eq_true_eq] at htest
    obtain ⟨-, hdist, hov⟩ := htest
    rw [horect] at hdist hov
    exact ⟨by rw [hArect]; exact hdist,
           by rw [hArect]; exact hasVerticalOverlap_eq_true.mp hov⟩
  · intro hmem
    rw [hAnb] at hmem
    obtain ⟨o, ho, hid, htest⟩ := mem_findNeighbors_bottom.mp hmem
    have horect := resolve o ho hid
    simp only [bottomNeighborTest, Bool.and_eq_true, decide_eq_true_eq] at htest
    obtain ⟨-, hdist, hov⟩ := htest
    rw [horect] at hdist hov
    exact ⟨by rw [hArect]; exact hdist,
           by rw [hArect]; exact hasHorizontalOverlap_eq_true.mp hov⟩
  · intro hmem
    rw [hAnb] at hmem
    obtain ⟨o, ho, hid, htest⟩ := mem_findNeighbors_top.mp hmem
    have horect := resolve o ho hid
    simp only [topNeighborTest, Bool.and_eq_true, decide_eq_true_eq] at htest
    obtain ⟨-, hdist, hov⟩ := htest
    rw [horect] at hdist hov
    exact ⟨by rw [hArect]; exact hdist,
           by rw [hArect]; exact hasHorizontalOverlap_eq_true.mp hov⟩

/-- C10: immediately after `recalculateNeighbors()`, the neighbor graph over
tiled windows is symmetric: B is a right-neighbor of A exactly when A is a
left-neighbor of B, and B is a bottom-neighbor of A exactly when A is a
top-neighbor of B (both directions use the same edge distance and the same
symmetric overlap predicate). -/
theorem recalculateNeighbors_symmetry
    (ws : Registry) (A B : WindowState)
    (hnd : (ws.map WindowState.id).Nodup)
    (hA : A ∈ recalculateNeighbors CONFIG_EDGE_TOLERANCE CONFIG_NEIGHBOR_OVERLAP_MIN ws)
    (hB : B ∈ recalculateNeighbors CONFIG_EDGE_TOLERANCE CONFIG_NEIGHBOR_OVERLAP_MIN ws)
    (hAt : A.isTiled = true) (hBt : B.isTiled = true) :
    (B.id ∈ A.neighbors.right ↔ A.id ∈ B.neighbors.left) ∧
    (B.id ∈ A.neighbors.bottom ↔ A.id ∈ B.neighbors.top) := by
  obtain ⟨a, haw, hat, hAeq⟩ := mem_recalculateNeighbors_tiled hA hAt
  obtain ⟨b, hbw, hbt, hBeq⟩ := mem_recalculateNeighbors_tiled hB hBt
  have hAid : A.id = a.id := by rw [hAeq]
  have hBid : B.id = b.id := by rw [hBeq]
  have hAnb : A.neighbors = findNeighbors a (getTiledWindows ws)
      CONFIG_EDGE_TOLERANCE CONFIG_NEIGHBOR_OVERLAP_MIN := by rw [hAeq]
  have hBnb : B.neighbors = findNeighbors b (getTiledWindows ws)
      CONFIG_EDGE_TOLERANCE CONFIG_NEIGHBOR_OVERLAP_MIN := by rw [hBeq]
  have hatl : a ∈ getTiledWindows ws := List.mem_filter.mpr ⟨haw, by simp [hat]⟩
  have hbtl : b ∈ getTiledWindows ws := List.mem_filter.mpr ⟨hbw, by simp [hbt]⟩
  have resolveB : ∀ o : WindowState, o ∈ getTiledWindows ws → o.id = B.id → o = b := by
    intro o ho hid
    exact registry_id_inj hnd (List.mem_filter.mp ho).1 hbw (by rw [hid, hBid])
  have resolveA : ∀ o : WindowState, o ∈ getTiledWindows ws → o.id = A.id → o = a := by
    intro o ho hid
    exact registry_id_inj hnd (List.mem_filter.mp ho).1 haw (by rw [hid, hAid])
  constructor
  · rw [hAnb, hBnb]
    constructor
    · intro hmem
      obtain ⟨o, ho, hid, htest⟩ := mem_findNeighbors_right.mp hmem
      rw [resolveB o ho hid] at htest
      simp only [rightNeighborTest, Bool.and_eq_true, Bool.not_eq_true',
        beq_eq_false_iff_ne, ne_eq, decide_eq_true_eq] at htest
      obtain ⟨hne, hdist, hov⟩ := htest
      refine mem_findNeighbors_left.mpr ⟨a, hatl, hAid.symm, ?_⟩
      simp only [leftNeighborTest, Bool.and_eq_true, Bool.not_eq_true',
        beq_eq_false_iff_ne, ne_eq, decide_eq_true_eq]
      exact ⟨fun h => hne h.symm, by rw [abs_sub_comm]; exact hdist,
             by rw [hasVerticalOverlap_comm]; exact hov⟩
    · intro hmem
      obtain ⟨o, ho, hid, htest⟩ := mem_findNeighbors_left.mp hmem
      rw [resolveA o ho hid] at htest
      simp only [leftNeighborTest, Bool.and_eq_true, Bool.not_eq_true',
        beq_eq_false_iff_ne, ne_eq, decide_eq_true_eq] at htest
      obtain ⟨hne, hdist, hov⟩ := htest
      refine mem_findNeighbors_right.mpr ⟨b, hbtl, hBid.symm, ?_⟩
      simp only [rightNeighborTest, Bool.and_eq_true, Bool.not_eq_true',
        beq_eq_false_iff_ne, ne_eq, decide_eq_true_eq]
      exact ⟨fun h => hne h.symm, by rw [abs_sub_comm]; exact hdist,
             by rw [hasVerticalOverlap_comm]; exact hov⟩
  · rw [hAnb, hBnb]
    constructor
    · intro hmem
      obtain ⟨o, ho, hid, htest⟩ := mem_findNeighbors_bottom.mp hmem
      rw [resolveB o ho hid] at htest
      simp only [bottomNeighborTest, Bool.and_eq_true, Bool.not_eq_true',
        beq_eq_false_iff_ne, ne_eq, decide_eq_true_eq] at htest
      obtain ⟨hne, hdist, hov⟩ := htest
      refine mem_findNeighbors_top.mpr ⟨a, hatl, hAid.symm, ?_⟩
      simp only [topNeighborTest, Bool.and_eq_true, Bool.not_eq_true',
        beq_eq_false_iff_ne, ne_eq, decide_eq_true_eq]
      exact ⟨fun h => hne h.symm, by rw [abs_sub_comm]; exact hdist,
             by rw [hasHorizontalOverlap_comm]; exact hov⟩
    · intro hmem
      obtain ⟨o, ho, hid, htest⟩ := mem_findNeighbors_top.mp hmem
      rw [resolveA o ho hid] at htest
      simp only [topNeighborTest, Bool.and_eq_true, Bool.not_eq_true',
        beq_eq_false_iff_ne, ne_eq, decide_eq_true_eq] at htest
      obtain ⟨hne, hdist, hov⟩ := htest
      refine mem_findNeighbors_bottom.mpr ⟨b, hbtl, hBid.symm, ?_⟩
      simp only [bottomNeighborTest, Bool.and_eq_true, Bool.not_eq_true',
        beq_eq_false_iff_ne, ne_eq, decide_eq_true_eq]
      exact ⟨fun h => hne h.symm, by rw [abs_sub_comm]; exact hdist,
             by rw [hasHorizontalOverlap_comm]; exact hov⟩

/-- Witness for C5: two side-by-side tiled windows (the left-half/right-half
layout of a 1920×1080 work area with gap 8); after recalculation window 2 is
a right-neighbor of window 1 and the edge/overlap bounds hold. -/
theorem recalculateNeighbors_adjacency_witness :
    ((2 : Int) ∈
      (WindowState.mk 1 ⟨8, 8, 948, 1064⟩ none "left" true ⟨[], [2], [], []⟩).neighbors.right) ∧
    (|getRightEdge (⟨8, 8, 948, 1064⟩ : Rect) - (964 : Int)| ≤ CONFIG_EDGE_TOLERANCE ∧
      CONFIG_NEIGHBOR_OVERLAP_MIN ≤
        min (getBottomEdge (⟨8, 8, 948, 1064⟩ : Rect)) (getBottomEdge (⟨964, 8, 948, 1064⟩ : Rect)) -
          max (8 : Int) 8) :=
  ⟨by decide,
   (recalculateNeighbors_adjacency
      [⟨1, ⟨8, 8, 948, 1064⟩, none, "left", true, Neighbors.empty⟩,
       ⟨2, ⟨964, 8, 948, 1064⟩, none, "right", true, Neighbors.empty⟩]
      ⟨1, ⟨8, 8, 948, 1064⟩, none, "left", true, ⟨[], [2], [], []⟩⟩
      ⟨2, ⟨964, 8, 948, 1064⟩, none, "right", true, ⟨[1], [], [], []⟩⟩
      (by decide) (by decide) (by decide) (by decide) (by decide)).1 (by decide)⟩

/-- Witness for C10: in the same two-window layout, window 2 in window 1's
right list is equivalent to window 1 in window 2's left list. -/
theorem recalculateNeighbors_symmetry_witness :
    ((2 : Int) ∈
        (WindowState.mk 1 ⟨8, 8, 948, 1064⟩ none "left" true ⟨[], [2], [], []⟩).neighbors.right ↔
      (1 : Int) ∈
        (WindowState.mk 2 ⟨964, 8, 948, 1064⟩ none "right" true ⟨[1], [], [], []⟩).neighbors.left) :=
  (recalculateNeighbors_symmetry
      [⟨1, ⟨8, 8, 948, 1064⟩, none, "left", true, Neighbors.empty⟩,
       ⟨2, ⟨964, 8, 948, 1064⟩, none, "right", true, Neighbors.empty⟩]
      ⟨1, ⟨8, 8, 948, 1064⟩, none, "left", true, ⟨[], [2], [], []⟩⟩
      ⟨2, ⟨964, 8, 948, 1064⟩, none, "right", true, ⟨[1], [], [], []⟩⟩
      (by decide) (by decide) (by decide) (by decide) (by decide)).1

/-- C9: `removeWindow(id)` with `id` present deletes that entry, keeps every
other entry (with `id` purged from its four neighbor lists, other fields
unchanged), leaves no neighbor list containing `id`, and fires the change
notification; with `id` absent it returns the registry completely unchanged
and fires no notification. -/
theorem removeWindow_spec (ws : Registry) (id : Int) :
    (ws.any (fun w => w.id == id) = true →
      ((∀ w ∈ (removeWindow id ws).1,
          w.id ≠ id ∧ id ∉ w.neighbors.left ∧ id ∉ w.neighbors.right ∧
          id ∉ w.neighbors.top ∧ id ∉ w.neighbors.bottom) ∧
       (∀ v ∈ ws, v.id ≠ id →
          ({ v with neighbors :=
              { left := v.neighbors.left.filter (fun i => i != id)
                right := v.neighbors.right.filter (fun i => i != id)
                top := v.neighbors.top.filter (fun i => i != id)
                bottom := v.neighbors.bottom.filter (fun i => i != id) } } : WindowState)
            ∈ (removeWindow id ws).1) ∧
       (removeWindow id ws).2 = true)) ∧
    (ws.any (fun w => w.id == id) = false → removeWindow id ws = (ws, false)) := by
  constructor
  · intro hpresent
    unfold removeWindow
    rw [if_pos hpresent]
    refine ⟨?_, ?_, rfl⟩
    · intro w hw
      unfold removeFromNeighbors at hw
      obtain ⟨v, hv, hEq⟩ := List.mem_map.mp hw
      have hvid : v.id ≠ id := by
        have := (List.mem_filter.mp hv).2
        simpa using this
      subst hEq
      refine ⟨hvid, ?_, ?_, ?_, ?_⟩ <;>
        · intro hmem
          have := (List.mem_filter.mp hmem).2
          simp at this
    · intro v hv hvid
      unfold removeFromNeighbors
      exact List.mem_map.mpr ⟨v, List.mem_filter.mpr ⟨hv, by simpa using hvid⟩, rfl⟩
  · intro habsent
    unfold removeWindow
    rw [if_neg (by simp [habsent])]

/-- Witness for C9: removing id 2 from a two-window registry purges it from
window 1's right list and notifies; removing an absent id 5 is a silent
no-op. -/
theorem removeWindow_spec_witness :
    ((∀ w ∈ (removeWindow 2
        [⟨1, ⟨8, 8, 948, 1064⟩, none, "left", true, ⟨[], [2], [], []⟩⟩,
         ⟨2, ⟨964, 8, 948, 1064⟩, none, "right", true, ⟨[1], [], [], []⟩⟩]).1,
        w.id ≠ 2 ∧ (2 : Int) ∉ w.neighbors.left ∧ (2 : Int) ∉ w.neighbors.right ∧
        (2 : Int) ∉ w.neighbors.top ∧ (2 : Int) ∉ w.neighbors.bottom) ∧
     (∀ v ∈ ([⟨1, ⟨8, 8, 948, 1064⟩, none, "left", true, ⟨[], [2], [], []⟩⟩,
         ⟨2, ⟨964, 8, 948, 1064⟩, none, "right", true, ⟨[1], [], [], []⟩⟩] : Registry),
        v.id ≠ 2 →
          ({ v with neighbors :=
              { left := v.neighbors.left.filter (fun i => i != 2)
                right := v.neighbors.right.filter (fun i => i != 2)
                top := v.neighbors.top.filter (fun i => i != 2)
                bottom := v.neighbors.bottom.filter (fun i => i != 2) } } : WindowState)
            ∈ (removeWindow 2
        [⟨1, ⟨8, 8, 948, 1064⟩, none, "left", true, ⟨[], [2], [], []⟩⟩,
         ⟨2, ⟨964, 8, 948, 1064⟩, none, "right", true, ⟨[1], [], [], []⟩⟩]).1) ∧
     (removeWindow 2
        [⟨1, ⟨8, 8, 948, 1064⟩, none, "left", true, ⟨[], [2], [], []⟩⟩,
         ⟨2, ⟨964, 8, 948, 1064⟩, none, "right", true, ⟨[1], [], [], []⟩⟩]).2 = true) ∧
    removeWindow 5
        [⟨1, ⟨8, 8, 948, 1064⟩, none, "left", true, ⟨[], [2], [], []⟩⟩]
      = ([⟨1, ⟨8, 8, 948, 1064⟩, none, "left", true, ⟨[], [2], [], []⟩⟩], false) :=
  ⟨(removeWindow_spec
      [⟨1, ⟨8, 8, 948, 1064⟩, none, "left", true, ⟨[], [2], [], []⟩⟩,
       ⟨2, ⟨964, 8, 948, 1064⟩, none, "right", true, ⟨[1], [], [], []⟩⟩] 2).1 (by decide),
   (removeWindow_spec
      [⟨1, ⟨8, 8, 948, 1064⟩, none, "left", true, ⟨[], [2], [], []⟩⟩] 5).2 (by decide)⟩

/-- An externally visible effect of one `ResizeHandler._adjust*Neighbors`
call: either a neighbor window is moved/resized (`moveResizeWindow` +
`setWindow` on the neighbor), or the resizing window itself is clamped back
(`moveResizeWindow` + `setWindow` on the resizer with its last known
rectangle). -/
inductive ResizeCmd where
  | adjust (id : Int) (rect : Rect)
  | revert (rect : Rect)
deriving DecidableEq

/-- `ResizeHandler._adjustRightNeighbors` (GapDetector.js lines 641–700):
the commands emitted for the fetched right-neighbor list, in iteration
order.  `resizerLast` is `this._lastRect`; `minWidth` is
`CONFIG.MIN_WINDOW_WIDTH`.  The `_getMetaWindow` lookup is modelled as
succeeding (a failed lookup merely drops that neighbor's command). -/
def adjustRightNeighbors (resizerLast : Rect) (minWidth delta : Int)
    (neighbors : List WindowState) : List ResizeCmd :=
  neighbors.flatMap fun neighbor =>
    let newNeighborWidth := neighbor.rect.width - delta
    if newNeighborWidth < minWidth ∧ delta > 0 then
      let maxDelta := neighbor.rect.width - minWidth
      if maxDelta ≤ 0 then
        [ResizeCmd.revert resizerLast]
      else
        [ResizeCmd.adjust neighbor.id
          ⟨neighbor.rect.x + maxDelta, neighbor.rect.y, minWidth, neighbor.rect.height⟩]
    else
      [ResizeCmd.adjust neighbor.id
        ⟨neighbor.rect.x + delta, neighbor.rect.y, newNeighborWidth, neighbor.rect.height⟩]

/-- `ResizeHandler._adjustLeftNeighbors` (GapDetector.js lines 707–766). -/
def adjustLeftNeighbors (resizerLast : Rect) (minWidth delta : Int)
    (neighbors : List WindowState) : List ResizeCmd :=
  neighbors.flatMap fun neighbor =>
    let newNeighborWidth := neighbor.rect.width + delta
    if newNeighborWidth < minWidth ∧ delta < 0 then
      if neighbor.rect.width ≤ minWidth then
        [ResizeCmd.revert resizerLast]
      else
        [ResizeCmd.adjust neighbor.id
          ⟨neighbor.rect.x, neighbor.rect.y, minWidth, neighbor.rect.height⟩]
    else
      [ResizeCmd.adjust neighbor.id
        ⟨neighbor.rect.x, neighbor.rect.y, newNeighborWidth, neighbor.rect.height⟩]

/-- `ResizeHandler._adjustBottomNeighbors` (GapDetector.js lines 773–794):
a neighbor whose candidate height would fall below `minHeight` is skipped
(`continue`) with no command at all. -/
def adjustBottomNeighbors (minHeight delta : Int)
    (neighbors : List WindowState) : List ResizeCmd :=
  neighbors.flatMap fun neighbor =>
    let newRect : Rect :=
      ⟨neighbor.rect.x, neighbor.rect.y + delta, neighbor.rect.width, neighbor.rect.height - delta⟩
    if newRect.height < minHeight then []
    else [ResizeCmd.adjust neighbor.id newRect]

/-- `ResizeHandler._adjustTopNeighbors` (GapDetector.js lines 801–822). -/
def adjustTopNeighbors (minHeight delta : Int)
    (neighbors : List WindowState) : List ResizeCmd :=
  neighbors.flatMap fun neighbor =>
    let newRect : Rect :=
      ⟨neighbor.rect.x, neighbor.rect.y, neighbor.rect.width, neighbor.rect.height + delta⟩
    if newRect.height < minHeight then []
    else [ResizeCmd.adjust neighbor.id newRect]

/-- Counterexample for C1: with the first right-neighbor (id 1) already at
minimum width (`maxDelta ≤ 0`) and a positive delta, the tick reverts the
resizing window but then *continues*: the subsequent neighbor (id 2) is
still adjusted — its rectangle is modified in the same tick, contradicting
"stop adjusting further neighbors in this tick". -/
theorem adjustRightNeighbors_continues_after_revert :
    (⟨400, 0, 200, 500⟩ : Rect).width - CONFIG_MIN_WINDOW_WIDTH ≤ 0 ∧
    (0 : Int) < 50 ∧
    adjustRightNeighbors ⟨0, 0, 400, 500⟩ CONFIG_MIN_WINDOW_WIDTH 50
        [⟨1, ⟨400, 0, 200, 500⟩, none, "auto", true, Neighbors.empty⟩,
         ⟨2, ⟨600, 0, 300, 500⟩, none, "auto", true, Neighbors.empty⟩] =
      [ResizeCmd.revert ⟨0, 0, 400, 500⟩, ResizeCmd.adjust 2 ⟨650, 0, 250, 500⟩] ∧
    ResizeCmd.adjust 2 ⟨650, 0, 250, 500⟩ ∈
      adjustRightNeighbors ⟨0, 0, 400, 500⟩ CONFIG_MIN_WINDOW_WIDTH 50
        [⟨1, ⟨400, 0, 200, 500⟩, none, "auto", true, Neighbors.empty⟩,
         ⟨2, ⟨600, 0, 300, 500⟩, none, "auto", true, Neighbors.empty⟩] := by
  refine ⟨by decide, by decide, by decide, by decide⟩

/-- C1 (amended): when a right-neighbor meets a positive delta — or a
left-neighbor meets a negative delta — while already at or below minimum
width, that neighbor is left unchanged and the resizing window is clamped
back to its last known rectangle, but the loop *continues* (`continue`,
not a break): every subsequent neighbor is still processed exactly as if
the at-minimum neighbor were absent.  Covers both `_adjustRightNeighbors`
and `_adjustLeftNeighbors`. -/
theorem adjustHorizontalNeighbors_atMin_revert_and_continue
    (resizerLast : Rect) (minWidth delta : Int) (pre post : List WindowState)
    (n : WindowState) (hmin : n.rect.width ≤ minWidth) :
    (0 < delta →
      adjustRightNeighbors resizerLast minWidth delta (pre ++ n :: post) =
        adjustRightNeighbors resizerLast minWidth delta pre
          ++ [ResizeCmd.revert resizerLast]
          ++ adjustRightNeighbors resizerLast minWidth delta post) ∧
    (delta < 0 →
      adjustLeftNeighbors resizerLast minWidth delta (pre ++ n :: post) =
        adjustLeftNeighbors resizerLast minWidth delta pre
          ++ [ResizeCmd.revert resizerLast]
          ++ adjustLeftNeighbors resizerLast minWidth delta post) := by
  constructor
  · intro hdelta
    have h1 : n.rect.width - delta < minWidth := by omega
    have h2 : n.rect.width - minWidth ≤ 0 := by omega
    simp only [adjustRightNeighbors, List.flatMap_append, List.flatMap_cons]
    rw [if_pos ⟨h1, hdelta⟩, if_pos h2, List.append_assoc]
  · intro hdelta
    have h1 : n.rect.width + delta < minWidth := by omega
    simp only [adjustLeftNeighbors, List.flatMap_append, List.flatMap_cons]
    rw [if_pos ⟨h1, hdelta⟩, if_pos hmin, List.append_assoc]

/-- Witness for the amended C1: one healthy neighbor before, one at
minimum, one healthy after; in the right pass (delta 50) and in the left
pass (delta −50) the at-minimum neighbor contributes only the revert and
the surrounding neighbors are still adjusted. -/
theorem adjustHorizontalNeighbors_atMin_witness :
    (⟨1, ⟨400, 0, 200, 500⟩, none, "auto", true, Neighbors.empty⟩ : WindowState).rect.width ≤
      CONFIG_MIN_WINDOW_WIDTH ∧
    (0 : Int) < 50 ∧ (-50 : Int) < 0 ∧
    adjustRightNeighbors ⟨0, 0, 400, 500⟩ CONFIG_MIN_WINDOW_WIDTH 50
        ([⟨3, ⟨100, 0, 300, 500⟩, none, "auto", true, Neighbors.empty⟩] ++
          ⟨1, ⟨400, 0, 200, 500⟩, none, "auto", true, Neighbors.empty⟩ ::
          [⟨2, ⟨600, 0, 300, 500⟩, none, "auto", true, Neighbors.empty⟩]) =
      adjustRightNeighbors ⟨0, 0, 400, 500⟩ CONFIG_MIN_WINDOW_WIDTH 50
          [⟨3, ⟨100, 0, 300, 500⟩, none, "auto", true, Neighbors.empty⟩]
        ++ [ResizeCmd.revert ⟨0, 0, 400, 500⟩]
        ++ adjustRightNeighbors ⟨0, 0, 400, 500⟩ CONFIG_MIN_WINDOW_WIDTH 50
          [⟨2, ⟨600, 0, 300, 500⟩, none, "auto", true, Neighbors.empty⟩] ∧
    adjustLeftNeighbors ⟨0, 0, 400, 500⟩ CONFIG_MIN_WINDOW_WIDTH (-50)
        ([⟨3, ⟨100, 0, 300, 500⟩, none, "auto", true, Neighbors.empty⟩] ++
          ⟨1, ⟨400, 0, 200, 500⟩, none, "auto", true, Neighbors.empty⟩ ::
          [⟨2, ⟨600, 0, 300, 500⟩, none, "auto", true, Neighbors.empty⟩]) =
      adjustLeftNeighbors ⟨0, 0, 400, 500⟩ CONFIG_MIN_WINDOW_WIDTH (-50)
          [⟨3, ⟨100, 0, 300, 500⟩, none, "auto", true, Neighbors.empty⟩]
        ++ [ResizeCmd.revert ⟨0, 0, 400, 500⟩]
        ++ adjustLeftNeighbors ⟨0, 0, 400, 500⟩ CONFIG_MIN_WINDOW_WIDTH (-50)
          [⟨2, ⟨600, 0, 300, 500⟩, none, "auto", true, Neighbors.empty⟩] :=
  ⟨by decide, by decide, by decide,
   (adjustHorizontalNeighbors_atMin_revert_and_continue ⟨0, 0, 400, 500⟩
     CONFIG_MIN_WINDOW_WIDTH 50
     [⟨3, ⟨100, 0, 300, 500⟩, none, "auto", true, Neighbors.empty⟩]
     [⟨2, ⟨600, 0, 300, 500⟩, none, "auto", true, Neighbors.empty⟩]
     ⟨1, ⟨400, 0, 200, 500⟩, none, "auto", true, Neighbors.empty⟩
     (by decide)).1 (by decide),
   (adjustHorizontalNeighbors_atMin_revert_and_continue ⟨0, 0, 400, 500⟩
     CONFIG_MIN_WINDOW_WIDTH (-50)
     [⟨3, ⟨100, 0, 300, 500⟩, none, "auto", true, Neighbors.empty⟩]
     [⟨2, ⟨600, 0, 300, 500⟩, none, "auto", true, Neighbors.empty⟩]
     ⟨1, ⟨400, 0, 200, 500⟩, none, "auto", true, Neighbors.empty⟩
     (by decide)).2 (by decide)⟩

/-- C4: for every signed delta and every neighbor list whose current
rectangles respect the minimum width and height, every neighbor rectangle
emitted by the four resize-propagation passes again respects both minima;
the only command not so bounded is the `revert` of the resizing window. -/
theorem resizeNeighbors_respect_minima
    (resizerLast : Rect) (minWidth minHeight delta : Int)
    (neighbors : List WindowState)
    (h : ∀ n ∈ neighbors, minWidth ≤ n.rect.width ∧ minHeight ≤ n.rect.height) :
    (∀ i r, ResizeCmd.adjust i r ∈ adjustRightNeighbors resizerLast minWidth delta neighbors →
        minWidth ≤ r.width ∧ minHeight ≤ r.height) ∧
    (∀ i r, ResizeCmd.adjust i r ∈ adjustLeftNeighbors resizerLast minWidth delta neighbors →
        minWidth ≤ r.width ∧ minHeight ≤ r.height) ∧
    (∀ i r, ResizeCmd.adjust i r ∈ adjustBottomNeighbors minHeight delta neighbors →
        minWidth ≤ r.width ∧ minHeight ≤ r.height) ∧
    (∀ i r, ResizeCmd.adjust i r ∈ adjustTopNeighbors minHeight delta neighbors →
        minWidth ≤ r.width ∧ minHeight ≤ r.height) := by
  refine ⟨?_, ?_, ?_, ?_⟩ <;>
  · intro i r hmem
    simp only [adjustRightNeighbors, adjustLeftNeighbors, adjustBottomNeighbors,
      adjustTopNeighbors] at hmem
    obtain ⟨n, hn, hcmd⟩ := List.mem_flatMap.mp hmem
    obtain ⟨hw, hh⟩ := h n hn
    split at hcmd
    case isTrue hc =>
      first
      | (split at hcmd
         case isTrue hc2 => simp at hcmd
         case isFalse hc2 =>
           simp only [List.mem_singleton, ResizeCmd.adjust.injEq] at hcmd
           obtain ⟨-, rfl⟩ := hcmd
           exact ⟨by simp, by simp; omega⟩)
      | simp at hcmd
    case isFalse hc =>
      simp only [List.mem_singleton, ResizeCmd.adjust.injEq] at hcmd
      obtain ⟨-, rfl⟩ := hcmd
      constructor <;> simp <;> omega

/-- Witness for C4: with both neighbors above the minima and delta 50, the
emitted adjustment for neighbor 2 keeps width ≥ 200 and height ≥ 100. -/
theorem resizeNeighbors_respect_minima_witness :
    CONFIG_MIN_WINDOW_WIDTH ≤ (⟨650, 0, 250, 500⟩ : Rect).width ∧
    CONFIG_MIN_WINDOW_HEIGHT ≤ (⟨650, 0, 250, 500⟩ : Rect).height :=
  (resizeNeighbors_respect_minima ⟨0, 0, 400, 500⟩
      CONFIG_MIN_WINDOW_WIDTH CONFIG_MIN_WINDOW_HEIGHT 50
      [⟨2, ⟨600, 0, 300, 500⟩, none, "auto", true, Neighbors.empty⟩]
      (by decide)).1 2 ⟨650, 0, 250, 500⟩ (by decide)

/-- The `for (const tiled of tiledWindows)` placement loop of
`TileManager._redistributeAfterRemoval` (part_005 lines 360–378): each
window in order is assigned `{x: currentX, y: workArea.y+gap, width,
height}` and `currentX` advances by `width + gap`.  The result pairs each
window id with the rectangle passed to `setWindow`/`moveResizeWindow`. -/
def layoutRow (currentX y width height gap : Int) : Registry → List (Int × Rect)
  | [] => []
  | t :: ts =>
      (t.id, (⟨currentX, y, width, height⟩ : Rect)) ::
        layoutRow (currentX + width + gap) y width height gap ts

/-- `TileManager._redistributeAfterRemoval` (part_005 lines 342–383):
`totalGaps = gap·(n+1)`, `windowWidth = ⌊(workArea.width − totalGaps)/n⌋`,
then the placement loop.  `gap` is the read of `CONFIG.INNER_GAP`; the
monitor/work-area lookups are the `workArea` parameter; the function
returns early when no tiled windows remain. -/
def redistributeAfterRemoval (workArea : Rect) (gap : Int)
    (tiledWindows : Registry) : List (Int × Rect) :=
  if tiledWindows.isEmpty then []
  else
    let totalWindows : Int := tiledWindows.length
    let totalGaps := gap * (totalWindows + 1)
    let availableWidth := workArea.width - totalGaps
    let windowWidth := availableWidth.fdiv totalWindows
    layoutRow (workArea.x + gap) (workArea.y + gap) windowWidth
      (workArea.height - gap * 2) gap tiledWindows

lemma layoutRow_getElem? (y width height gap : Int) :
    ∀ (l : Registry) (currentX : Int) (i : Nat),
      (layoutRow currentX y width height gap l)[i]? =
        (l[i]?).map fun t =>
          (t.id, (⟨currentX + i * (width + gap), y, width, height⟩ : Rect)) := by
  intro l
  induction l with
  | nil => intro currentX i; simp [layoutRow]
  | cons t ts ih =>
    intro currentX i
    cases i with
    | zero => simp [layoutRow]
    | succ j =>
      simp only [layoutRow, List.getElem?_cons_succ, ih]
      cases h : ts[j]? with
      | none => simp
      | some u =>
        simp only [Option.map_some']
        congr 2
        push_cast
        ring_nf

lemma layoutRow_mem (y width height gap : Int) :
    ∀ (l : Registry) (currentX : Int) (p : Int × Rect),
      p ∈ layoutRow currentX y width height gap l →
        p.2.width = width ∧ p.2.height = height := by
  intro l
  induction l with
  | nil => intro currentX p hp; simp [layoutRow] at hp
  | cons t ts ih =>
    intro currentX p hp
    rcases List.mem_cons.mp hp with h | h
    · subst h; exact ⟨rfl, rfl⟩
    · exact ih _ p h

/-- C7: post-removal redistribution over `n ≥ 1` remaining tiled windows:
the i-th window is assigned width `⌊(W − g·(n+1))/n⌋`, x position
`workArea.x + g + i·(width+g)` (so the leftmost sits at `workArea.x + g`
and consecutive positions advance by `width + g`), y `workArea.y + g` and
height `workArea.height − 2·g`. -/
theorem redistributeAfterRemoval_layout
    (workArea : Rect) (gap : Int) (tiledWindows : Registry)
    (hne : tiledWindows ≠ []) :
    ∀ i : Nat,
      (redistributeAfterRemoval workArea gap tiledWindows)[i]? =
        (tiledWindows[i]?).map fun t =>
          (t.id,
            (⟨workArea.x + gap +
                i * ((workArea.width - gap * (tiledWindows.length + 1)).fdiv
                      tiledWindows.length + gap),
              workArea.y + gap,
              (workArea.width - gap * (tiledWindows.length + 1)).fdiv
                tiledWindows.length,
              workArea.height - gap * 2⟩ : Rect)) := by
  intro i
  unfold redistributeAfterRemoval
  rw [if_neg (by simpa using hne)]
  exact layoutRow_getElem? _ _ _ _ tiledWindows _ i

/-- Witness for C7 (the §8 scenario): removing one of three equal windows
on a 1920-wide, gap-8 work area redistributes the remaining two to width
`⌊(1920−24)/2⌋ = 948` at x = 8 and x = 964. -/
theorem redistributeAfterRemoval_layout_witness :
    (redistributeAfterRemoval ⟨0, 0, 1920, 1080⟩ 8
        [⟨1, ⟨8, 8, 628, 1064⟩, none, "auto", true, Neighbors.empty⟩,
         ⟨2, ⟨644, 8, 628, 1064⟩, none, "auto", true, Neighbors.empty⟩])[0]? =
      some (1, ⟨8, 8, 948, 1064⟩) ∧
    (redistributeAfterRemoval ⟨0, 0, 1920, 1080⟩ 8
        [⟨1, ⟨8, 8, 628, 1064⟩, none, "auto", true, Neighbors.empty⟩,
         ⟨2, ⟨644, 8, 628, 1064⟩, none, "auto", true, Neighbors.empty⟩])[1]? =
      some (2, ⟨964, 8, 948, 1064⟩) := by
  constructor
  · rw [redistributeAfterRemoval_layout ⟨0, 0, 1920, 1080⟩ 8
      [⟨1, ⟨8, 8, 628, 1064⟩, none, "auto", true, Neighbors.empty⟩,
       ⟨2, ⟨644, 8, 628, 1064⟩, none, "auto", true, Neighbors.empty⟩]
      (by decide) 0]
    decide
  · rw [redistributeAfterRemoval_layout ⟨0, 0, 1920, 1080⟩ 8
      [⟨1, ⟨8, 8, 628, 1064⟩, none, "auto", true, Neighbors.empty⟩,
       ⟨2, ⟨644, 8, 628, 1064⟩, none, "auto", true, Neighbors.empty⟩]
      (by decide) 1]
    decide

/-- Counterexample for C2: equal-distribution after removal applies no
minimum-width clamp.  With two remaining windows on a 300-wide, gap-8 work
area it emits width `⌊(300−24)/2⌋ = 138 < MIN_WINDOW_WIDTH = 200` for both
windows, violating "never assigns a window a width below the minimum". -/
theorem redistributeAfterRemoval_below_min :
    redistributeAfterRemoval ⟨0, 0, 300, 200⟩ 8
        [⟨1, ⟨8, 8, 130, 184⟩, none, "auto", true, Neighbors.empty⟩,
         ⟨2, ⟨146, 8, 130, 184⟩, none, "auto", true, Neighbors.empty⟩] =
      [(1, ⟨8, 8, 138, 184⟩), (2, ⟨154, 8, 138, 184⟩)] ∧
    (138 : Int) < CONFIG_MIN_WINDOW_WIDTH := by
  exact ⟨by decide, by decide⟩

/-- C2 (amended): equal-distribution after removal emits only rectangles of
width `⌊(W − g·(n+1))/n⌋` and height `workArea.height − 2·g`; every emitted
rectangle respects the configured minima exactly when those two quantities
do (the code contains no clamp, so for narrow work areas the widths drop
below minimum, as the counterexample shows). -/
theorem redistributeAfterRemoval_min_cond
    (workArea : Rect) (gap minWidth minHeight : Int) (tiledWindows : Registry)
    (hw : minWidth ≤ (workArea.width - gap * (tiledWindows.length + 1)).fdiv
            tiledWindows.length)
    (hh : minHeight ≤ workArea.height - gap * 2) :
    ∀ p ∈ redistributeAfterRemoval workArea gap tiledWindows,
      minWidth ≤ p.2.width ∧ minHeight ≤ p.2.height := by
  intro p hp
  unfold redistributeAfterRemoval at hp
  by_cases he : tiledWindows.isEmpty
  · rw [if_pos he] at hp
    simp at hp
  · rw [if_neg he] at hp
    obtain ⟨hpw, hph⟩ := layoutRow_mem _ _ _ _ tiledWindows _ p hp
    rw [hpw, hph]
    exact ⟨hw, hh⟩

/-- Witness for the amended C2: on the 1920×1080, gap-8 work area with two
windows the emitted 948×1064 rectangles respect both minima. -/
theorem redistributeAfterRemoval_min_cond_witness :
    CONFIG_MIN_WINDOW_WIDTH ≤ ((⟨8, 8, 948, 1064⟩ : Rect)).width ∧
    CONFIG_MIN_WINDOW_HEIGHT ≤ ((⟨8, 8, 948, 1064⟩ : Rect)).height :=
  redistributeAfterRemoval_min_cond ⟨0, 0, 1920, 1080⟩ 8
    CONFIG_MIN_WINDOW_WIDTH CONFIG_MIN_WINDOW_HEIGHT
    [⟨1, ⟨8, 8, 628, 1064⟩, none, "auto", true, Neighbors.empty⟩,
     ⟨2, ⟨644, 8, 628, 1064⟩, none, "auto", true, Neighbors.empty⟩]
    (by decide) (by decide) (1, ⟨8, 8, 948, 1064⟩) (by decide)

/-- `Math.ceil(a / b)` for a positive divisor, as exact integer arithmetic. -/
def ceilDivJs (a b : Int) : Int := -((-a).fdiv b)

/-- The width-planning portion of `TileManager._onInsertDetected` (part_005
lines 565–613): given the widths of the existing tiled windows (sorted by
x), compute the inserted window's width and the final planned widths of the
existing windows.  `minWidth` is the read of `CONFIG.MIN_WINDOW_WIDTH` and
`gap` of `CONFIG.INNER_GAP`.  `Math.floor(w * scaleFactor)`, with
`scaleFactor = remainingWidth / currentTotalWidth` a floating-point ratio,
is modelled by its exact rational value `⌊w·remainingWidth /
currentTotalWidth⌋`. -/
def onInsertDetectedWidths (workArea : Rect) (gap minWidth : Int)
    (tiledWidths : List Int) : Int × List Int :=
  let totalWindows : Int := tiledWidths.length + 1
  let totalGapSpace := gap * 2 + gap * (totalWindows - 1)
  let availableWidth := workArea.width - totalGapSpace
  let newWindowWidth := max minWidth (availableWidth.fdiv totalWindows)
  let currentTotalWidth := tiledWidths.sum
  let remainingWidth := availableWidth - newWindowWidth
  let scaledWidths := tiledWidths.map fun w => (w * remainingWidth).fdiv currentTotalWidth
  let windowWidths := scaledWidths.map fun w => if w < minWidth then minWidth else w
  let windowsAtMinWidth : Int := (scaledWidths.filter fun w => w < minWidth).length
  let widthAfterMinEnforcement := windowWidths.sum
  let excessWidth := widthAfterMinEnforcement + newWindowWidth - availableWidth
  if excessWidth > 0 ∧ windowsAtMinWidth < (tiledWidths.length : Int) then
    let windowsToShrink := (tiledWidths.length : Int) - windowsAtMinWidth
    let shrinkPerWindow := ceilDivJs excessWidth windowsToShrink
    (newWindowWidth,
      windowWidths.map fun w => if w > minWidth then max minWidth (w - shrinkPerWindow) else w)
  else
    (newWindowWidth, windowWidths)

/-- Counterexample for C3: inserting into a row of two 200-wide tiled
windows (both exactly at minimum, and fitting their 500-wide work area:
200+200+3·8 = 424 ≤ 500) with gap 8 plans widths (200, [200, 200]), whose
sum plus `(n+2)·g = 32` is 632 > 500 — the claimed fit bound fails because
the new window's share `⌊468/3⌋ = 156` is clamped up to the 200 minimum and
the existing windows cannot shrink below it. -/
theorem onInsertDetectedWidths_overflow :
    (∀ w ∈ ([200, 200] : List Int), CONFIG_MIN_WINDOW_WIDTH ≤ w) ∧
    (200 : Int) + 200 + 3 * 8 ≤ 500 ∧
    onInsertDetectedWidths ⟨0, 0, 500, 800⟩ 8 CONFIG_MIN_WINDOW_WIDTH [200, 200] =
      (200, [200, 200]) ∧
    ¬ ((onInsertDetectedWidths ⟨0, 0, 500, 800⟩ 8 CONFIG_MIN_WINDOW_WIDTH [200, 200]).1 +
        (onInsertDetectedWidths ⟨0, 0, 500, 800⟩ 8 CONFIG_MIN_WINDOW_WIDTH [200, 200]).2.sum +
        (2 + 2) * 8 ≤ 500) := by
  refine ⟨by decide, by decide, by decide, by decide⟩

/-- C3 (amended): inserting into a row of `n ≥ 1` equal-width tiled windows
(all widths ≥ `minWidth ≥ 1`) on a work area of width `W` with gap `g`
yields `n+1` planned widths all ≥ `minWidth` with
`sum + (n+2)·g ≤ W`, *provided* the new window's unclamped share
`⌊(W − (n+2)·g)/(n+1)⌋` is at least `minWidth`; when that share must be
clamped up to the minimum the total can exceed the work area (see the
counterexample). -/
theorem onInsertDetectedWidths_min_and_fit
    (workArea : Rect) (gap minWidth : Int) (n : Nat) (w0 : Int)
    (hn : 1 ≤ n) (hminpos : 1 ≤ minWidth) (hw0 : minWidth ≤ w0)
    (hfit : minWidth ≤ (workArea.width - gap * ((n : Int) + 2)).fdiv ((n : Int) + 1)) :
    minWidth ≤ (onInsertDetectedWidths workArea gap minWidth (List.replicate n w0)).1 ∧
    (∀ w ∈ (onInsertDetectedWidths workArea gap minWidth (List.replicate n w0)).2,
      minWidth ≤ w) ∧
    (onInsertDetectedWidths workArea gap minWidth (List.replicate n w0)).1 +
      (onInsertDetectedWidths workArea gap minWidth (List.replicate n w0)).2.sum +
      ((n : Int) + 2) * gap ≤ workArea.width := by
  have hN1 : (1 : Int) ≤ (n : Int) := by exact_mod_cast hn
  set N : Int := (n : Int) with hN
  set A : Int := workArea.width - (gap * 2 + gap * N) with hA
  set q : Int := A.fdiv (N + 1) with hq
  have hqe : q = A / (N + 1) := by rw [hq, Int.fdiv_eq_ediv _ (by omega)]
  have hminq : minWidth ≤ q := by
    have h' : workArea.width - gap * (N + 2) = A := by rw [hA]; ring
    rw [h'] at hfit
    rw [← hq] at hfit
    exact hfit
  have hA_decomp : (N + 1) * (A / (N + 1)) + A % (N + 1) = A := Int.ediv_add_emod A (N + 1)
  have hr0 : 0 ≤ A % (N + 1) := Int.emod_nonneg A (by omega)
  set r : Int := A % (N + 1) with hrdef
  set R : Int := A - q with hR
  have hRval : R = N * q + r := by
    have hexp : (N + 1) * (A / (N + 1)) = N * (A / (N + 1)) + A / (N + 1) := by ring
    rw [hR, hqe]
    rw [hexp] at hA_decomp
    linarith
  have hw0pos : (0 : Int) < w0 := by omega
  set s : Int := (w0 * R).fdiv (N * w0) with hs
  have hse : s = R / N := by
    rw [hs, Int.fdiv_eq_ediv _ (by positivity), mul_comm N w0]
    exact Int.mul_ediv_mul_of_pos R N hw0pos
  have hqs : q ≤ s := by
    rw [hse, hRval]
    have h1 : (N * q + r) / N = r / N + q := by
      have h2 := Int.add_mul_ediv_right r q (show N ≠ 0 by omega)
      rw [show N * q + r = r + q * N by ring, h2]
    rw [h1]
    have h3 : 0 ≤ r / N := Int.ediv_nonneg hr0 (by omega)
    omega
  have hmins : minWidth ≤ s := le_trans hminq hqs
  have hNs_le : N * s ≤ R := by
    rw [hse]
    have h4 := Int.ediv_add_emod R N
    have h5 : 0 ≤ R % N := Int.emod_nonneg R (show N ≠ 0 by omega)
    linarith
  have hcol : (if s < minWidth then minWidth else s) = s := if_neg (by omega)
  have heval : onInsertDetectedWidths workArea gap minWidth (List.replicate n w0) =
      (q, List.replicate n s) := by
    unfold onInsertDetectedWidths
    simp only [List.length_replicate, List.map_replicate, List.sum_replicate, nsmul_eq_mul,
      add_sub_cancel_right, ← hN]
    rw [← hA, ← hq]
    have hmax : max minWidth q = q := max_eq_right hminq
    rw [hmax, ← hR, ← hs, hcol]
    rw [if_neg]
    rintro ⟨h1, -⟩
    linarith
  rw [heval]
  refine ⟨hminq, ?_, ?_⟩
  · intro w hw
    rw [List.eq_of_mem_replicate hw]
    exact hmins
  · rw [List.sum_replicate, nsmul_eq_mul, ← hN]
    have hWA : workArea.width = A + (N + 2) * gap := by rw [hA]; ring
    rw [hWA]
    linarith

/-- Witness for the amended C3: two existing 700-wide windows on a
1920-wide, gap-8 work area (`⌊1888/3⌋ = 629 ≥ 200`): the planned widths are
all ≥ 200 and fit. -/
theorem onInsertDetectedWidths_min_and_fit_witness :
    CONFIG_MIN_WINDOW_WIDTH ≤
      (onInsertDetectedWidths ⟨0, 0, 1920, 1080⟩ 8 CONFIG_MIN_WINDOW_WIDTH
        (List.replicate 2 700)).1 ∧
    (∀ w ∈ (onInsertDetectedWidths ⟨0, 0, 1920, 1080⟩ 8 CONFIG_MIN_WINDOW_WIDTH
        (List.replicate 2 700)).2, CONFIG_MIN_WINDOW_WIDTH ≤ w) ∧
    (onInsertDetectedWidths ⟨0, 0, 1920, 1080⟩ 8 CONFIG_MIN_WINDOW_WIDTH
        (List.replicate 2 700)).1 +
      (onInsertDetectedWidths ⟨0, 0, 1920, 1080⟩ 8 CONFIG_MIN_WINDOW_WIDTH
        (List.replicate 2 700)).2.sum +
      (((2 : Nat) : Int) + 2) * 8 ≤ (⟨0, 0, 1920, 1080⟩ : Rect).width :=
  onInsertDetectedWidths_min_and_fit ⟨0, 0, 1920, 1080⟩ 8 CONFIG_MIN_WINDOW_WIDTH 2 700
    (by decide) (by decide) (by decide) (by decide)

/-- The `Partial<WindowState>` argument of `StateStore.setWindow`
(part_004 line 62): `none` models an absent (`undefined`) field. -/
structure WindowPatch where
  rect : Option Rect
  originalRect : Option Rect
  zone : Option String
  isTiled : Option Bool
  neighbors : Option Neighbors

/-- `StateStore.setWindow` (part_004 lines 62–79): upsert.  Each field is
`patch ?? existing ?? default` (zero rect, `null` originalRect, `'none'`
zone, untiled, empty neighbors); an existing key keeps its map position
(JavaScript `Map.set`), a new key is appended. -/
def setWindow (id : Int) (patch : WindowPatch) (ws : Registry) : Registry :=
  let existing := getWindow id ws
  let windowState : WindowState :=
    { id := id
      rect := patch.rect.getD ((existing.map WindowState.rect).getD ⟨0, 0, 0, 0⟩)
      originalRect := patch.originalRect.orElse fun _ => existing.bind WindowState.originalRect
      zone := patch.zone.getD ((existing.map WindowState.zone).getD "none")
      isTiled := patch.isTiled.getD ((existing.map WindowState.isTiled).getD false)
      neighbors := patch.neighbors.getD ((existing.map WindowState.neighbors).getD Neighbors.empty) }
  match existing with
  | some _ => ws.map fun w => if w.id == id then windowState else w
  | none => ws ++ [windowState]

/-- `SwapDetector._performSwap` (part_000 lines 262–283): if both the
pending target and the dragged window are still in the registry, emit the
swap event carrying `draggedTargetRect = {...targetState.rect}` and
`targetNewRect = {...this._dragStartRect}` (the dragged window's rectangle
captured at grab begin, not its rectangle at release, which `_performSwap`
never reads). -/
def performSwap (ws : Registry) (draggedId targetId : Int)
    (dragStartRect : Rect) : Option (Rect × Rect) :=
  match getWindow targetId ws, getWindow draggedId ws with
  | some targetState, some _ => some (targetState.rect, dragStartRect)
  | _, _ => none

/-- `TileManager._onSwapDetected` (part_005 lines 437–485): both states are
read before either update; the dragged window gets the event's
`draggedTargetRect` and the target's former zone, the target gets the
event's `targetNewRect` and the dragged window's former zone; then
`recalculateNeighbors()`.  (The `moveResizeWindow` calls on the physical
windows mirror the same two rectangles.) -/
def onSwapDetected (tolerance minOverlap : Int) (ws : Registry)
    (draggedId targetId : Int) (draggedTargetRect targetNewRect : Rect) : Registry :=
  let draggedState := getWindow draggedId ws
  let targetState := getWindow targetId ws
  let ws1 :=
    if draggedState.isSome then
      setWindow draggedId
        ⟨some draggedTargetRect, none,
         some ((targetState.map WindowState.zone).getD "swapped"), none, none⟩ ws
    else ws
  let ws2 :=
    if targetState.isSome then
      setWindow targetId
        ⟨some targetNewRect, none,
         some ((draggedState.map WindowState.zone).getD "swapped"), none, none⟩ ws1
    else ws1
  recalculateNeighbors tolerance minOverlap ws2

/-- The committed swap: `_performSwap` builds the event, `_onSwapDetected`
applies it (a missing target or dragged state aborts the commit). -/
def swapCommit (tolerance minOverlap : Int) (ws : Registry)
    (draggedId targetId : Int) (dragStartRect : Rect) : Registry :=
  match performSwap ws draggedId targetId dragStartRect with
  | none => ws
  | some (draggedTargetRect, targetNewRect) =>
      onSwapDetected tolerance minOverlap ws draggedId targetId
        draggedTargetRect targetNewRect

lemma find?_update_self {v : WindowState} :
    ∀ (ws : Registry) (id : Int) (st : WindowState), st.id = id →
      List.find? (fun w => w.id == id) ws = some v →
      List.find? (fun w => w.id == id) (ws.map fun w => if w.id == id then st else w) =
        some st := by
  intro ws
  induction ws with
  | nil => intro id st hst h; simp at h
  | cons w ws ih =>
    intro id st hst h
    rw [List.find?_cons] at h
    cases hw : (w.id == id) with
    | true =>
      simp only [List.map_cons, if_pos hw, List.find?_cons, hst, beq_self_eq_true]
    | false =>
      rw [hw] at h
      have hcol : (if (w.id == id) = true then st else w) = w := if_neg (by simp [hw])
      simp only [List.map_cons, hcol]
      simp only [List.find?_cons, hw]
      exact ih id st hst h

lemma find?_update_ne :
    ∀ (ws : Registry) (i j : Int) (st : WindowState), st.id = j → i ≠ j →
      List.find? (fun w => w.id == i) (ws.map fun w => if w.id == j then st else w) =
        List.find? (fun w => w.id == i) ws := by
  intro ws
  induction ws with
  | nil => intro i j st hst hne; simp
  | cons w ws ih =>
    intro i j st hst hne
    cases hw : (w.id == j) with
    | true =>
      have hwj : w.id = j := by simpa using hw
      have hwi : (w.id == i) = false := beq_eq_false_iff_ne.mpr (by omega)
      have hsti : (st.id == i) = false := beq_eq_false_iff_ne.mpr (by omega)
      simp only [List.map_cons, if_pos hw, List.find?_cons, hwi, hsti]
      exact ih i j st hst hne
    | false =>
      have hcol : (if (w.id == j) = true then st else w) = w := if_neg (by simp [hw])
      simp only [List.map_cons, hcol, List.find?_cons]
      cases hwi : (w.id == i) with
      | true => rfl
      | false => exact ih i j st hst hne

lemma find?_append_singleton_ne (ws : Registry) (st : WindowState) (i : Int)
    (h : (st.id == i) = false) :
    List.find? (fun w => w.id == i) (ws ++ [st]) =
      List.find? (fun w => w.id == i) ws := by
  rw [List.find?_append]
  have hnone : List.find? (fun w => w.id == i) [st] = none := by
    simp only [List.find?_cons, h, List.find?_nil]
  rw [hnone, Option.or_none]

lemma getWindow_setWindow_of_mem {id : Int} {patch : WindowPatch} {ws : Registry}
    {v : WindowState} (h : getWindow id ws = some v) :
    getWindow id (setWindow id patch ws) = some
      { id := id
        rect := patch.rect.getD v.rect
        originalRect := patch.originalRect.orElse fun _ => v.originalRect
        zone := patch.zone.getD v.zone
        isTiled := patch.isTiled.getD v.isTiled
        neighbors := patch.neighbors.getD v.neighbors } := by
  unfold setWindow
  rw [h]
  unfold getWindow at h ⊢
  rw [find?_update_self ws id _ rfl h]
  simp

lemma getWindow_setWindow_ne {i j : Int} (hne : i ≠ j) (patch : WindowPatch)
    (ws : Registry) :
    getWindow i (setWindow j patch ws) = getWindow i ws := by
  unfold setWindow
  cases hex : getWindow j ws with
  | none =>
    unfold getWindow
    exact find?_append_singleton_ne ws _ i (beq_eq_false_iff_ne.mpr (Ne.symm hne))
  | some v =>
    unfold getWindow
    exact find?_update_ne ws i j _ rfl hne

lemma getWindow_recalculateNeighbors (tolerance minOverlap : Int) (ws : Registry) (i : Int) :
    ((getWindow i (recalculateNeighbors tolerance minOverlap ws)).map fun w => (w.rect, w.zone)) =
      (getWindow i ws).map fun w => (w.rect, w.zone) := by
  unfold recalculateNeighbors getWindow
  rw [List.find?_map]
  have hp : ((fun w => w.id == i) ∘ fun w : WindowState =>
      if w.isTiled = true then
        { w with neighbors := findNeighbors w (getTiledWindows ws) tolerance minOverlap }
      else w) = fun w : WindowState => w.id == i := by
    funext w
    by_cases hw : w.isTiled = true <;> simp [hw]
  rw [hp]
  cases hfind : List.find? (fun w => w.id == i) ws with
  | none => simp
  | some w0 =>
    by_cases hw : w0.isTiled = true <;> simp [hw]

/-- C6: a committed swap of dragged window D with target T (both present)
sets D's registry rectangle to T's rectangle as stored at commit time and
D's zone to T's former zone, and sets T's registry rectangle to D's
rectangle as captured at drag start (`_dragStartRect`; D's rectangle at
release is never read) and T's zone to D's former zone. -/
theorem swapCommit_spec
    (ws : Registry) (draggedId targetId : Int) (dragStartRect : Rect)
    (dS tS : WindowState)
    (hne : draggedId ≠ targetId)
    (hd : getWindow draggedId ws = some dS)
    (ht : getWindow targetId ws = some tS) :
    ((getWindow draggedId (swapCommit CONFIG_EDGE_TOLERANCE CONFIG_NEIGHBOR_OVERLAP_MIN
        ws draggedId targetId dragStartRect)).map fun w => (w.rect, w.zone)) =
      some (tS.rect, tS.zone) ∧
    ((getWindow targetId (swapCommit CONFIG_EDGE_TOLERANCE CONFIG_NEIGHBOR_OVERLAP_MIN
        ws draggedId targetId dragStartRect)).map fun w => (w.rect, w.zone)) =
      some (dragStartRect, dS.zone) := by
  have hsc : swapCommit CONFIG_EDGE_TOLERANCE CONFIG_NEIGHBOR_OVERLAP_MIN
      ws draggedId targetId dragStartRect =
      recalculateNeighbors CONFIG_EDGE_TOLERANCE CONFIG_NEIGHBOR_OVERLAP_MIN
        (setWindow targetId ⟨some dragStartRect, none, some dS.zone, none, none⟩
          (setWindow draggedId ⟨some tS.rect, none, some tS.zone, none, none⟩ ws)) := by
    unfold swapCommit performSwap
    rw [ht, hd]
    unfold onSwapDetected
    rw [hd, ht]
    rfl
  rw [hsc]
  constructor
  · rw [getWindow_recalculateNeighbors,
        getWindow_setWindow_ne hne,
        getWindow_setWindow_of_mem hd]
    simp
  · rw [getWindow_recalculateNeighbors]
    have ht1 : getWindow targetId
        (setWindow draggedId ⟨some tS.rect, none, some tS.zone, none, none⟩ ws) = some tS := by
      rw [getWindow_setWindow_ne (Ne.symm hne)]
      exact ht
    rw [getWindow_setWindow_of_mem ht1]
    simp

/-- Witness for C6: dragging window 1 (zone "left", drag-start rect
{8,8,948,1064}) onto window 2 (zone "right", rect {964,8,948,1064}) and
committing: window 1 gets window 2's rect and former zone, window 2 gets
window 1's drag-start rect and former zone. -/
theorem swapCommit_spec_witness :
    ((getWindow 1 (swapCommit CONFIG_EDGE_TOLERANCE CONFIG_NEIGHBOR_OVERLAP_MIN
        [⟨1, ⟨8, 8, 948, 1064⟩, none, "left", true, Neighbors.empty⟩,
         ⟨2, ⟨964, 8, 948, 1064⟩, none, "right", true, Neighbors.empty⟩]
        1 2 ⟨8, 8, 948, 1064⟩)).map fun w => (w.rect, w.zone)) =
      some ((⟨2, ⟨964, 8, 948, 1064⟩, none, "right", true, Neighbors.empty⟩ : WindowState).rect,
            (⟨2, ⟨964, 8, 948, 1064⟩, none, "right", true, Neighbors.empty⟩ : WindowState).zone) ∧
    ((getWindow 2 (swapCommit CONFIG_EDGE_TOLERANCE CONFIG_NEIGHBOR_OVERLAP_MIN
        [⟨1, ⟨8, 8, 948, 1064⟩, none, "left", true, Neighbors.empty⟩,
         ⟨2, ⟨964, 8, 948, 1064⟩, none, "right", true, Neighbors.empty⟩]
        1 2 ⟨8, 8, 948, 1064⟩)).map fun w => (w.rect, w.zone)) =
      some ((⟨8, 8, 948, 1064⟩ : Rect),
            (⟨1, ⟨8, 8, 948, 1064⟩, none, "left", true, Neighbors.empty⟩ : WindowState).zone) :=
  swapCommit_spec
    [⟨1, ⟨8, 8, 948, 1064⟩, none, "left", true, Neighbors.empty⟩,
     ⟨2, ⟨964, 8, 948, 1064⟩, none, "right", true, Neighbors.empty⟩]
    1 2 ⟨8, 8, 948, 1064⟩
    ⟨1, ⟨8, 8, 948, 1064⟩, none, "left", true, Neighbors.empty⟩
    ⟨2, ⟨964, 8, 948, 1064⟩, none, "right", true, Neighbors.empty⟩
    (by decide) (by decide) (by decide)
